import Mathlib

/-! # Media ingestion handlers: `handlerUploadVideo` and `handlerUploadThumbnail`

A shallow embedding of `handler_upload_video.go` and `handler_upload_thumbnail.go`.

* Go `int` is the 64-bit two's-complement integer: arithmetic is done in `Int` and wrapped
  explicitly with `wrap64`.
* Go strings are `String`; the library functions the handlers call (`strings.Split`,
  `mime.ParseMediaType`, `filepath.Join`, `fmt.Sprintf`, `base64.RawURLEncoding`) are
  embedded as functions on character lists.
* The handlers are stateful: the storage they touch (local files, the object store, the
  metadata store) is an explicit `World`, the results of the collaborators a handler cannot
  determine (token validation, subprocess exit status, I/O errors, random bytes) are fields of
  the request record, and a handler returns the new world, the response it wrote and the list
  of storage calls it made, in order.
-/

deriving instance DecidableEq for Except

namespace Tubely

/-! ## Go integers -/

/-- Two's-complement wrap of an integer to the range of Go's 64-bit `int`. -/
def wrap64 (x : Int) : Int := (x + 2 ^ 63) % 2 ^ 64 - 2 ^ 63

/-- Whether `x` is a value of Go's 64-bit `int`. -/
def inInt64 (x : Int) : Prop := -(2 ^ 63) ≤ x ∧ x < 2 ^ 63

instance (x : Int) : Decidable (inInt64 x) := by unfold inInt64; infer_instance

/-- Go `a * b` on `int`. -/
def goMul (a b : Int) : Int := wrap64 (a * b)

/-- Go `a / b` on `int`: division truncating toward zero. -/
def goDiv (a b : Int) : Int := wrap64 (Int.tdiv a b)

/-! ## The container prober -/

/-- One element of `JsonDetails.Streams`: the `width` and `height` fields. -/
structure Stream where
  Width : Int
  Height : Int
deriving DecidableEq, Repr

/-- What running `ffprobe` on a file and decoding its standard output yields:
`cmd.Run()` fails, `json.Unmarshal` fails, or the decoded `Streams` slice. -/
inductive ProbeOutput where
  | runError
  | unmarshalError
  | streams (ss : List Stream)
deriving DecidableEq, Repr

/-- The final `if`/`else if` of `getVideoAspectRatio`, on the first stream's geometry. -/
def aspectOf (width height : Int) : String :=
  if width = goDiv (goMul 16 height) 9 then "16:9"
  else if height = goDiv (goMul 16 width) 9 then "9:16"
  else "other"

/-- Embedding of `getVideoAspectRatio`, given what the probe of `filePath` produced. -/
def getVideoAspectRatio (probe : ProbeOutput) : Except String String :=
  match probe with
  | .runError => .error "ffprobe error"
  | .unmarshalError => .error "error unmarshalling bytes to json struct"
  | .streams [] => .error "no video streams found"
  | .streams (s :: _) => .ok (aspectOf s.Width s.Height)

/-- The orientation classes of the specification. -/
inductive Orientation where
  | landscape
  | portrait
  | other
deriving DecidableEq, Repr

/-- The string `getVideoAspectRatio` returns for an orientation class. -/
def Orientation.ratio : Orientation → String
  | .landscape => "16:9"
  | .portrait => "9:16"
  | .other => "other"

/-- The name of an orientation class, which is also its directory in a storage key. -/
def Orientation.name : Orientation → String
  | .landscape => "landscape"
  | .portrait => "portrait"
  | .other => "other"

/-- The classification rule in the words of the specification: `landscape` when
`width == 16 * height / 9`, else `portrait` when `height == 16 * width / 9`, else `other`,
over unbounded integers with division truncating toward zero. -/
def specClassify (width height : Int) : Orientation :=
  if width = Int.tdiv (16 * height) 9 then .landscape
  else if height = Int.tdiv (16 * width) 9 then .portrait
  else .other

/-- The `switch aspectRatio` of `handlerUploadVideo` that picks the key's directory. -/
def directoryOf (aspectRatio : String) : String :=
  if aspectRatio = "16:9" then "landscape"
  else if aspectRatio = "9:16" then "portrait"
  else "other"

/-! ## Go library functions used by the handlers

Strings are processed as lists of runes. -/

/-- Go `unicode.IsSpace`. -/
def isSpace (c : Char) : Bool :=
  c = '\t' || c = '\n' || c.val = 0x0B || c.val = 0x0C || c = '\r' || c = ' ' ||
  c.val = 0x85 || c.val = 0xA0 || c.val = 0x1680 ||
  (0x2000 ≤ c.val && c.val ≤ 0x200A) ||
  c.val = 0x2028 || c.val = 0x2029 || c.val = 0x202F || c.val = 0x205F || c.val = 0x3000

/-- Go `unicode.ToLower` as far as `mime.ParseMediaType` can observe it: ASCII letters, and the
two non-ASCII runes whose lower case is ASCII (U+0130 and the Kelvin sign U+212A). Every other
rune outside ASCII stays outside ASCII, where `isTokenChar` rejects it either way. -/
def toLowerRune (c : Char) : Char :=
  if c.val = 0x130 then 'i'
  else if c.val = 0x212A then 'k'
  else c.toLower

/-- Go `strings.ToLower`. -/
def toLower (s : List Char) : List Char := s.map toLowerRune

/-- Go `strings.TrimLeftFunc(s, unicode.IsSpace)`. -/
def trimLeftSpace (s : List Char) : List Char := s.dropWhile isSpace

/-- Go `strings.TrimSpace`. -/
def trimSpace (s : List Char) : List Char :=
  ((s.dropWhile isSpace).reverse.dropWhile isSpace).reverse

/-- Go `strings.Cut(s, string(sep))`: the text before the first `sep` and, when there is
one, the text after it. -/
def cut (sep : Char) : List Char → List Char × Option (List Char)
  | [] => ([], none)
  | c :: cs =>
    if c = sep then ([], some cs)
    else
      let r := cut sep cs
      (c :: r.1, r.2)

/-- Go `strings.Split(s, string(sep))` for a one-character separator. -/
def split (sep : Char) : List Char → List (List Char)
  | [] => [[]]
  | c :: cs =>
    if c = sep then [] :: split sep cs
    else
      match split sep cs with
      | [] => [[c]]
      | h :: t => (c :: h) :: t

/-- Go `strings.Join(elems, string(sep))`. -/
def join (sep : Char) : List (List Char) → List Char
  | [] => []
  | [e] => e
  | e :: es => e ++ sep :: join sep es

/-- Package `mime`: `isTSpecial`. -/
def isTSpecial (c : Char) : Bool := "()<>@,;:\\\"/[]?=".data.contains c

/-- Package `mime`: `isTokenChar`. -/
def isTokenChar (c : Char) : Bool := 0x20 < c.val && c.val < 0x7f && !isTSpecial c

/-- Package `mime`: `consumeToken`, the longest prefix of token characters and the rest. -/
def consumeToken (v : List Char) : List Char × List Char := v.span isTokenChar

/-- Package `mime`: `checkMediaTypeDisposition`; `none` when the check passes. -/
def checkMediaTypeDisposition (s : List Char) : Option String :=
  let (typ, rest) := consumeToken s
  if typ = [] then some "mime: no media type"
  else if rest = [] then none
  else
    match rest with
    | '/' :: afterSlash =>
      let (subtype, rest2) := consumeToken afterSlash
      if subtype = [] then some "mime: expected token after slash"
      else if rest2 ≠ [] then some "mime: unexpected content after media subtype"
      else none
    | _ => some "mime: expected slash after first token"

/-- The loop of `consumeValue` over a quoted string, after the opening quote: the unquoted
text and what follows the closing quote, or `none` when the value is not well formed. -/
def consumeQuoted : List Char → List Char → Option (List Char × List Char)
  | _, [] => none
  | acc, '"' :: rest => some (acc.reverse, rest)
  | acc, ['\\'] => consumeQuoted ('\\' :: acc) []
  | acc, '\\' :: d :: rest =>
    if isTSpecial d then consumeQuoted (d :: acc) rest
    else consumeQuoted ('\\' :: acc) (d :: rest)
  | acc, c :: rest =>
    if c = '\r' ∨ c = '\n' then none else consumeQuoted (c :: acc) rest

/-- Package `mime`: `consumeValue`. -/
def consumeValue (v : List Char) : List Char × List Char :=
  match v with
  | [] => ([], [])
  | '"' :: rest =>
    match consumeQuoted [] rest with
    | some r => r
    | none => ([], v)
  | _ => consumeToken v

/-- Package `mime`: `consumeMediaParam`. -/
def consumeMediaParam (v : List Char) : List Char × List Char × List Char :=
  match trimLeftSpace v with
  | ';' :: rest0 =>
    let (param0, rest1) := consumeToken (trimLeftSpace rest0)
    let param := toLower param0
    if param = [] then ([], [], v)
    else
      match trimLeftSpace rest1 with
      | '=' :: rest2 =>
        let rest3 := trimLeftSpace rest2
        let (value, rest4) := consumeValue rest3
        if value = [] ∧ rest4 = rest3 then ([], [], v) else (param, value, rest4)
      | _ => ([], [], v)
  | _ => ([], [], v)

/-- How one round of the parameter loop of `mime.ParseMediaType` ends: the loop stops, with
an error or without one, or it goes on with the parameters seen so far and the rest of the
input. -/
inductive ParamRound where
  | stop (err : Option String)
  | next (seen : List (List Char × List Char)) (rest : List Char)

/-- One round of the parameter loop of `mime.ParseMediaType`. The maps `params` and
`continuation[baseName]` are kept as one association list `seen`: a key determines which of
the maps it is stored in, so a key is found in its map exactly when it is found in `seen`. -/
def paramRound (seen : List (List Char × List Char)) (v : List Char) : ParamRound :=
  match trimLeftSpace v with
  | [] => .stop none
  | v1 =>
    let (key, value, rest) := consumeMediaParam v1
    if key = [] then
      if trimSpace rest = [';'] then .stop none
      else .stop (some "mime: invalid media parameter")
    else
      match seen.lookup key with
      | some old =>
        if old ≠ value then .stop (some "mime: duplicate parameter name")
        else .next ((key, value) :: seen) rest
      | none => .next ((key, value) :: seen) rest

/-- The parameter loop of `mime.ParseMediaType`; `none` when every parameter is accepted. A
round that goes on has removed at least the `;` of a parameter, so `fuel = len(v) + 1` rounds
always suffice (`parseParams_finishes`). -/
def parseParams : Nat → List (List Char × List Char) → List Char → Option String
  | 0, _, _ => some "mime: parameter loop did not finish"
  | fuel + 1, seen, v =>
    match paramRound seen v with
    | .stop err => err
    | .next seen1 rest => parseParams fuel seen1 rest

/-- Go `mime.ParseMediaType`, keeping the two results the handlers read: the media type
(lower-cased, trimmed, parameters dropped) or the error. -/
def ParseMediaType (v : String) : Except String String :=
  let base := (cut ';' v.data).1
  let mediatype := trimSpace (toLower base)
  match checkMediaTypeDisposition mediatype with
  | some e => .error e
  | none =>
    let v1 := v.data.drop base.length
    match parseParams (v1.length + 1) [] v1 with
    | some e => .error e
    | none => .ok (String.mk mediatype)

/-- The result of Go's unix `filepath.Clean` on one path element `e`, given the elements kept
so far (last kept first): empty and `.` elements are dropped, `..` removes the element before
it, or is kept at the front of a path that is not rooted. -/
def cleanStep (rooted : Bool) (kept : List (List Char)) (e : List Char) : List (List Char) :=
  if e = [] ∨ e = ['.'] then kept
  else if e = ['.', '.'] then
    match kept with
    | top :: below => if top = ['.', '.'] then e :: kept else below
    | [] => if rooted then [] else [e]
  else e :: kept

/-- Go's unix `filepath.Clean`, computed on the `/`-separated elements of the path. -/
def filepathClean (path : List Char) : List Char :=
  match path with
  | [] => ['.']
  | c :: _ =>
    let rooted := c = '/'
    let kept := (split '/' path).foldl (cleanStep rooted) []
    let out := (if rooted then ['/'] else []) ++ join '/' kept.reverse
    if out = [] then ['.'] else out

/-- Go's unix `filepath.Join`: the elements from the first non-empty one on, joined by `/` and
cleaned; the empty string when every element is empty. -/
def filepathJoin (elem : List String) : String :=
  match (elem.map String.data).dropWhile (fun e => e = []) with
  | [] => ""
  | es => String.mk (filepathClean (join '/' es))

/-- The alphabet of `base64.RawURLEncoding`. -/
def encodeURL : List Char :=
  "ABCDEFGHIJKLMNOPQRSTUVWXYZabcdefghijklmnopqrstuvwxyz0123456789-_".data

/-- The character of a 6-bit group. -/
def enc6 (n : Nat) : Char := encodeURL.getD (n % 64) 'A'

/-- Go `base64.RawURLEncoding.EncodeToString`: unpadded URL-safe base64 of a byte sequence. -/
def base64RawURL : List Nat → List Char
  | [] => []
  | [a] => [enc6 (a / 4), enc6 (a % 4 * 16)]
  | [a, b] => [enc6 (a / 4), enc6 (a % 4 * 16 + b / 16), enc6 (b % 16 * 4)]
  | a :: b :: c :: rest =>
    enc6 (a / 4) :: enc6 (a % 4 * 16 + b / 16) :: enc6 (b % 16 * 4 + c / 64) :: enc6 (c % 64)
      :: base64RawURL rest

/-- The buffer `make([]byte, 32)` after `rand.Read` wrote the bytes `rs` the random source
delivered into it: 32 bytes, zero where nothing was written. -/
def randomBuffer (rs : List Nat) : List Nat := (rs.map (· % 256)).takeD 32 0

/-! ## Storage, collaborators and responses -/

/-- File contents and request bodies: sequences of bytes. -/
abbrev Bytes := List Nat

/-- The fields of `database.Video` the handlers read or write. -/
structure Video where
  ID : String
  UserID : String
  ThumbnailURL : Option String
  VideoURL : Option String
deriving DecidableEq, Repr

/-- An object of the remote store, as `s3.PutObjectInput` describes it. -/
structure Object where
  Bucket : String
  Key : String
  ContentType : String
  Body : Bytes
deriving DecidableEq, Repr

/-- The storage a handler can change: local files (path and contents; the assets directory
and the temporary directory alike), the object store and the metadata store. -/
structure World where
  files : List (String × Bytes)
  objects : List Object
  videos : List Video
deriving DecidableEq, Repr

/-- The file at `path` exists. -/
def World.hasFile (w : World) (path : String) : Bool := (w.files.lookup path).isSome

/-- The contents of the file at `path` (empty when there is none). -/
def World.read (w : World) (path : String) : Bytes := (w.files.lookup path).getD []

/-- The file at `path` holds exactly `content` afterwards (`os.Create`, `os.CreateTemp` with
empty `content`; a completed write). -/
def World.write (w : World) (path : String) (content : Bytes) : World :=
  { w with files := (path, content) :: w.files.filter (fun f => f.1 ≠ path) }

/-- Effect of `os.Remove(path)`; its error is ignored by the handlers. -/
def World.remove (w : World) (path : String) : World :=
  { w with files := w.files.filter (fun f => f.1 ≠ path) }

/-- Effect of a `PutObject` that succeeds. -/
def World.put (w : World) (o : Object) : World :=
  { w with objects := o :: w.objects.filter (fun x => ¬ (x.Bucket = o.Bucket ∧ x.Key = o.Key)) }

/-- The fields of `apiConfig` the handlers read (`db` and `s3Client` are in `World`). -/
structure apiConfig where
  jwtSecret : String
  assetsRoot : String
  port : String
  s3Bucket : String
  s3CfDistribution : String
deriving DecidableEq, Repr

/-- Modelled from the spec: `cfg.db.GetVideo`, the metadata store's `GetAsset(id)`, a record
store keyed by asset identifier; it fails when there is no record for `id`. -/
def GetVideo (w : World) (id : String) : Option Video := w.videos.find? (fun v => v.ID = id)

/-- Modelled from the spec: `cfg.db.UpdateVideo`, the metadata store's
`UpdateAsset(record) -> error`, a single record write keyed by asset identifier. `fails` is
whether the store reports an error, in which case nothing is written. -/
def UpdateVideo (w : World) (fails : Bool) (video : Video) : Option World :=
  if fails then none
  else some { w with videos := w.videos.map (fun v => if v.ID = video.ID then video else v) }

/-- What a handler writes to the `http.ResponseWriter`. Modelled from the spec:
`respondWithError(w, code, msg, err)` writes an error object carrying a message and a status
code, `respondWithJSON(w, code, payload)` the serialized record; `panic` is a run-time panic
of the handler, which writes nothing. -/
inductive Response where
  | error (code : Nat) (msg : String)
  | json (code : Nat) (payload : Video)
  | panic
deriving DecidableEq, Repr

/-- The status codes of `net/http` the handlers and the error taxonomy name. -/
def StatusOK : Nat := 200
def StatusBadRequest : Nat := 400
def StatusUnauthorized : Nat := 401
def StatusRequestEntityTooLarge : Nat := 413
def StatusInternalServerError : Nat := 500

/-- The response is a success response. -/
def Response.isSuccess : Response → Bool
  | .json code _ => decide (code < 400)
  | _ => false

/-- The response is an error response. -/
def Response.isError : Response → Bool
  | .error _ _ => true
  | _ => false

/-- The calls a handler makes on storage and on the external tools, as logged in order. -/
inductive Call where
  | createTemp
  | create (path : String)
  | copy (path : String) (written : Nat)
  | ffprobe (path : String)
  | ffmpeg (input : String) (output : String)
  | open_ (path : String)
  | putObject (bucket : String) (key : String) (contentType : String)
  | updateVideo (video : Video)
  | remove (path : String)
deriving DecidableEq, Repr

/-- What a handler leaves behind: the storage, the response, the calls it made. -/
structure Outcome where
  world : World
  response : Response
  calls : List Call
deriving DecidableEq, Repr

/-- What running `ffmpeg` yields: exit status 0 with the output file written, or a non-zero
exit, after which the output file may already exist (`written = some b`). -/
inductive RemuxOutput where
  | done (output : Bytes)
  | failed (written : Option Bytes)
deriving DecidableEq, Repr

/-- Go `http.MaxBytesReader(w, body, n)`: what reading the returned reader to its end gives.
The reader passed in is left as it was. -/
def MaxBytesReader (body : Bytes) (n : Nat) : Except String Bytes :=
  if body.length ≤ n then .ok body else .error "http: request body too large"

/-- Go `http.defaultMaxMemory`, the limit `r.FormFile` parses the form with: `32 << 20`. -/
def defaultMaxMemory : Nat := 32 <<< 20

/-- The constant `maxMemory` of `handlerUploadThumbnail`: `10 << 20`. -/
def maxMemory : Nat := 10 <<< 20

/-- Effect on storage of Go `r.ParseMultipartForm(maxMemory)`, which `r.FormFile` runs too
when the form is not parsed yet (with `defaultMaxMemory`), on a form whose only file is the
one the handler asks for: the whole body is read; a file of at most `maxMemory` bytes is kept
in memory, a larger one is written to a new temporary file `multipart-*`, named `temp` here.
The handlers never remove that file, so it is there when they return. -/
def ParseMultipartForm (w : World) (body : Bytes) (partType : Option String)
    (maxMemory : Nat) (temp : String) : World :=
  match partType with
  | none => w
  | some _ => if maxMemory < body.length then w.write temp body else w

/-- Go `r.FormFile(name)` on the parsed form: the file of that form field with its
`Content-Type` header; `partType = none` when the form has no such file. -/
def FormFile (body : Bytes) (partType : Option String) : Option (Bytes × String) :=
  partType.map (fun t => (body, t))

/-- Modelled from the spec: `getAssetPath(mediaType)`, the unique key generator and the key
scheme without orientation bucket: `{identifier}.{extension}`, the identifier being 32 random
bytes in the URL-safe, padding-free base64 alphabet and the extension the subtype of the media
type (`video/mp4` gives `mp4`). -/
def getAssetPath (random : List Nat) (mediaType : String) : String :=
  let identifier := base64RawURL (randomBuffer random)
  let extension := match split '/' mediaType.data with
    | _ :: sub :: _ => sub
    | _ => []
  String.mk (identifier ++ '.' :: extension)

/-! ## `handlerUploadVideo` -/

/-- One request to `handlerUploadVideo`: its body and what each collaborator answers. -/
structure VideoRequest where
  /-- The result of `uuid.Parse(r.PathValue("videoID"))`. -/
  videoID : Option String
  /-- The result of `auth.GetBearerToken(r.Header)`. -/
  bearerToken : Option String
  /-- The result of `auth.ValidateJWT(accessToken, cfg.jwtSecret)`: the user ID. -/
  validateJWT : Option String
  /-- The bytes of `r.Body` that the form file `video` is read from. -/
  Body : Bytes
  /-- The `Content-Type` header of the form file `video`, if the form has that file. -/
  partType : Option String
  /-- The name of the temporary file `multipart-*` the form parser creates when it has to. -/
  multipartTemp : String
  /-- The name `os.CreateTemp("", "tubely-upload.mp4")` gives the new file, if it succeeds. -/
  createTemp : Option String
  /-- A failing `io.Copy`: the number of bytes written before the error. -/
  copyError : Option Nat
  /-- Whether `file.Seek(0, io.SeekStart)` fails. -/
  seekError : Bool
  /-- What `ffprobe` reports for the staged file. -/
  probe : ProbeOutput
  /-- The bytes the random source delivers. -/
  random : List Nat
  /-- What `ffmpeg` does. -/
  remux : RemuxOutput
  /-- Whether `os.Open(processedFilePath)` fails. -/
  openError : Bool
  /-- Whether `PutObject` fails. -/
  putObjectError : Bool
  /-- Whether `UpdateVideo` fails. -/
  updateVideoError : Bool
deriving DecidableEq, Repr

/-- Embedding of `processVideoForFastStart`: the storage after `ffmpeg` ran, and the result. -/
def processVideoForFastStart (w : World) (run : RemuxOutput) (filePath : String) :
    World × Except String String :=
  let newOutputPath := filePath ++ ".processing"
  match run with
  | .done output => (w.write newOutputPath output, .ok newOutputPath)
  | .failed (some b) => (w.write newOutputPath b, .error "error running command")
  | .failed none => (w, .error "error running command")

/-- Lines 107 to 130 of `handlerUploadVideo`: from `os.Open(processedFilePath)` to the
response, everything that runs with `defer os.Remove(processedFilePath)` pending. -/
def uploadProcessed (cfg : apiConfig) (w : World) (r : VideoRequest) (vidMetaData : Video)
    (mediaType key processedFilePath : String) : Outcome :=
  if r.openError then
    ⟨w, .error StatusInternalServerError "error opening processed file",
      [.open_ processedFilePath]⟩
  else
    -- the result of `PutObject` is not assigned
    let w1 := if r.putObjectError then w
      else w.put ⟨cfg.s3Bucket, key, mediaType, w.read processedFilePath⟩
    let cfURL := cfg.s3CfDistribution ++ "/" ++ key
    let vidMetaData := { vidMetaData with VideoURL := some cfURL }
    let calls := [Call.open_ processedFilePath, .putObject cfg.s3Bucket key mediaType,
      .updateVideo vidMetaData]
    match UpdateVideo w1 r.updateVideoError vidMetaData with
    | none => ⟨w1, .error StatusInternalServerError "Couldn't update video data", calls⟩
    | some w2 => ⟨w2, .json StatusOK vidMetaData, calls⟩

/-- Lines 71 to 130 of `handlerUploadVideo`: from `io.Copy` on, everything that runs with
`defer os.Remove(file.Name())` pending. -/
def uploadStaged (cfg : apiConfig) (w : World) (r : VideoRequest) (vidMetaData : Video)
    (mediaType : String) (uploadedVid : Bytes) (name : String) : Outcome :=
  match r.copyError with
  | some n =>
    ⟨w.write name (uploadedVid.take n),
      .error StatusInternalServerError "Couldn't copy file", [.copy name n]⟩
  | none =>
    let w1 := w.write name uploadedVid
    let copied := Call.copy name uploadedVid.length
    if r.seekError then
      ⟨w1, .error StatusInternalServerError "Couldn't point to beginning", [copied]⟩
    else
      match getVideoAspectRatio r.probe with
      | .error _ =>
        ⟨w1, .error StatusInternalServerError "Couldn't get aspect ratio for video",
          [copied, .ffprobe name]⟩
      | .ok aspectRatio =>
        let directory := directoryOf aspectRatio
        let key := getAssetPath r.random mediaType
        let key := filepathJoin [directory, key]
        let ran := Call.ffmpeg name (name ++ ".processing")
        match processVideoForFastStart w1 r.remux name with
        | (w2, .error _) =>
          ⟨w2, .error StatusInternalServerError "Error processing video",
            [copied, .ffprobe name, ran]⟩
        | (w2, .ok processedFilePath) =>
          let out := uploadProcessed cfg w2 r vidMetaData mediaType key processedFilePath
          -- deferred: os.Remove(processedFilePath)
          ⟨out.world.remove processedFilePath, out.response,
            [copied, .ffprobe name, ran] ++ out.calls ++ [.remove processedFilePath]⟩

/-- Embedding of `handlerUploadVideo`. -/
def handlerUploadVideo (cfg : apiConfig) (w : World) (r : VideoRequest) : Outcome :=
  -- `http.MaxBytesReader(w, r.Body, 1<<30)`: the reader it returns is not assigned
  let _limited := MaxBytesReader r.Body (1 <<< 30)
  match r.videoID with
  | none => ⟨w, .error StatusBadRequest "Couldn't parse videoID", []⟩
  | some videoID =>
  match r.bearerToken with
  | none => ⟨w, .error StatusBadRequest "header not found", []⟩
  | some _ =>
  match r.validateJWT with
  | none => ⟨w, .error StatusUnauthorized "invalid access token", []⟩
  | some userID =>
  match GetVideo w videoID with
  | none => ⟨w, .error StatusInternalServerError "video not found", []⟩
  | some vidMetaData =>
  if vidMetaData.UserID ≠ userID then
    ⟨w, .error StatusUnauthorized "not video owner", []⟩
  else
  -- `r.FormFile` parses the form first
  let w := ParseMultipartForm w r.Body r.partType defaultMaxMemory r.multipartTemp
  match FormFile r.Body r.partType with
  | none => ⟨w, .error StatusBadRequest "Something went wrong during video uploading", []⟩
  | some (uploadedVid, fileType) =>
  match ParseMediaType fileType with
  | .error _ => ⟨w, .error StatusBadRequest "content type of file not found", []⟩
  | .ok mediaType =>
  if mediaType ≠ "video/mp4" then
    ⟨w, .error StatusBadRequest "invalid file type", []⟩
  else
  match r.createTemp with
  | none => ⟨w, .error StatusInternalServerError "Couldn't create file path", [.createTemp]⟩
  | some name =>
    let out := uploadStaged cfg (w.write name []) r vidMetaData mediaType uploadedVid name
    -- deferred: os.Remove(file.Name())
    ⟨out.world.remove name, out.response, .createTemp :: out.calls ++ [.remove name]⟩

/-! ## `handlerUploadThumbnail` -/

/-- One request to `handlerUploadThumbnail`: its body and what each collaborator answers. -/
structure ThumbnailRequest where
  /-- The result of `uuid.Parse(r.PathValue("videoID"))`. -/
  videoID : Option String
  /-- The result of `auth.GetBearerToken(r.Header)`. -/
  bearerToken : Option String
  /-- The result of `auth.ValidateJWT(token, cfg.jwtSecret)`: the user ID. -/
  validateJWT : Option String
  /-- Whether `r.ParseMultipartForm(maxMemory)` fails; a failing parse removes the temporary
  files it wrote. -/
  parseFormError : Bool
  /-- The bytes of `r.Body` that the form file `thumbnail` is read from. -/
  Body : Bytes
  /-- The `Content-Type` header of the form file `thumbnail`, if the form has that file. -/
  partType : Option String
  /-- The name of the temporary file `multipart-*` the form parser creates when it has to. -/
  multipartTemp : String
  /-- The bytes the random source delivers. -/
  random : List Nat
  /-- Whether `os.Create(uniquePath)` fails. -/
  createError : Bool
  /-- A failing `io.Copy`: the number of bytes written before the error. -/
  copyError : Option Nat
  /-- Whether `UpdateVideo` fails. -/
  updateVideoError : Bool
deriving DecidableEq, Repr

/-- Lines 59 and 60 of `handlerUploadThumbnail`: `strings.Split(fileType, "/")[1]`; `none`
when the index is out of range. -/
def fileExtensionOf (fileType : String) : Option String :=
  match split '/' fileType.data with
  | _ :: ext :: _ => some (String.mk ext)
  | _ => none

/-- Embedding of `handlerUploadThumbnail`. -/
def handlerUploadThumbnail (cfg : apiConfig) (w : World) (r : ThumbnailRequest) : Outcome :=
  match r.videoID with
  | none => ⟨w, .error StatusBadRequest "Invalid ID", []⟩
  | some videoID =>
  match r.bearerToken with
  | none => ⟨w, .error StatusUnauthorized "Couldn't find JWT", []⟩
  | some _ =>
  match r.validateJWT with
  | none => ⟨w, .error StatusUnauthorized "Couldn't validate JWT", []⟩
  | some userID =>
  if r.parseFormError then
    ⟨w, .error StatusBadRequest "couldn't parse multipartform", []⟩
  else
  let w := ParseMultipartForm w r.Body r.partType maxMemory r.multipartTemp
  match FormFile r.Body r.partType with
  | none => ⟨w, .error StatusBadRequest "Unable to parse form", []⟩
  | some (file, fileType) =>
  match ParseMediaType fileType with
  | .error _ => ⟨w, .error StatusBadRequest "invalid file format", []⟩
  | .ok mediaType =>
  if mediaType ≠ "image/jpeg" ∧ mediaType ≠ "image/png" then
    ⟨w, .error StatusBadRequest "invalid file format", []⟩
  else
  match fileExtensionOf fileType with
  | none => ⟨w, .panic, []⟩
  | some fileExtension =>
  let randomStr := String.mk (base64RawURL (randomBuffer r.random))
  let uniquePath := filepathJoin [cfg.assetsRoot, randomStr ++ "." ++ fileExtension]
  if r.createError then
    ⟨w, .error StatusInternalServerError "Unable to create file path", [.create uniquePath]⟩
  else
  let w1 := w.write uniquePath []
  match r.copyError with
  | some n =>
    ⟨w1.write uniquePath (file.take n),
      .error StatusInternalServerError "Unable to copy file contents",
      [.create uniquePath, .copy uniquePath n]⟩
  | none =>
  let w2 := w1.write uniquePath file
  let calls := [Call.create uniquePath, .copy uniquePath file.length]
  match GetVideo w2 videoID with
  | none => ⟨w2, .error StatusBadRequest "unable to get video from db", calls⟩
  | some videoMetaData =>
  if videoMetaData.UserID ≠ userID then
    ⟨w2, .error StatusUnauthorized "unauthorized video user", calls⟩
  else
  let thumbnailURL :=
    "http://localhost:" ++ cfg.port ++ "/assets/" ++ randomStr ++ "." ++ fileExtension
  let videoMetaData := { videoMetaData with ThumbnailURL := some thumbnailURL }
  -- the result of `UpdateVideo` is not assigned
  let w3 := (UpdateVideo w2 r.updateVideoError videoMetaData).getD w2
  ⟨w3, .json StatusOK videoMetaData, calls ++ [.updateVideo videoMetaData]⟩

/-! ## Concrete requests -/

/-- A configuration. -/
def sampleConfig : apiConfig :=
  { jwtSecret := "secret", assetsRoot := "./assets", port := "8091",
    s3Bucket := "tubely-bucket", s3CfDistribution := "https://d111.cloudfront.net" }

/-- A storage with no files, no objects and one video record, owned by `alice`. -/
def sampleWorld : World :=
  { files := [], objects := [],
    videos := [{ ID := "v1", UserID := "alice", ThumbnailURL := none, VideoURL := none }] }

/-- A video upload by the owner in which every collaborator succeeds: a `video/mp4` part
whose first stream is 1920x1080. -/
def sampleUpload : VideoRequest :=
  { videoID := some "v1", bearerToken := some "token", validateJWT := some "alice",
    Body := [0, 0, 0, 24], partType := some "video/mp4",
    multipartTemp := "/tmp/multipart-456",
    createTemp := some "/tmp/tubely-upload.mp4123", copyError := none, seekError := false,
    probe := .streams [⟨1920, 1080⟩], random := [1, 2, 3], remux := .done [0, 0, 0, 32],
    openError := false, putObjectError := false, updateVideoError := false }

/-- A thumbnail upload by the owner in which every collaborator succeeds: an `image/png`
part. -/
def sampleThumbnail : ThumbnailRequest :=
  { videoID := some "v1", bearerToken := some "token", validateJWT := some "alice",
    parseFormError := false, Body := [137, 80, 78, 71], partType := some "image/png",
    multipartTemp := "/tmp/multipart-456",
    random := [1, 2, 3], createError := false, copyError := none, updateVideoError := false }

/-- The upload of `sampleUpload` with a first stream of 1x1. -/
def squareUpload : VideoRequest := { sampleUpload with probe := .streams [⟨1, 1⟩] }

/-- The upload of `sampleUpload` with a first stream of 1080x1920. -/
def portraitUpload : VideoRequest := { sampleUpload with probe := .streams [⟨1080, 1920⟩] }

/-- The upload of `sampleUpload` with a failing `PutObject`. -/
def putFailsUpload : VideoRequest := { sampleUpload with putObjectError := true }

/-- The upload of `sampleUpload` with a body of `(1 << 30) + 1` bytes. -/
def oversizedUpload : VideoRequest :=
  { sampleUpload with Body := List.replicate (1 <<< 30 + 1) 0 }

/-- The upload of `sampleUpload` with an `ffmpeg` that exits non-zero after it has created
its output file. -/
def remuxFailsUpload : VideoRequest := { sampleUpload with remux := .failed (some []) }

/-- The thumbnail upload of `sampleThumbnail`, sent by a user who does not own the video. -/
def strangerThumbnail : ThumbnailRequest :=
  { sampleThumbnail with validateJWT := some "mallory" }

/-- The thumbnail upload of `sampleThumbnail` with a part declared
`image/png; charset=utf-8`. -/
def charsetThumbnail : ThumbnailRequest :=
  { sampleThumbnail with partType := some "image/png; charset=utf-8" }

/-- The thumbnail upload of `sampleThumbnail` with a failing `UpdateVideo`. -/
def updateFailsThumbnail : ThumbnailRequest :=
  { sampleThumbnail with updateVideoError := true }

/-- The call is `UpdateVideo`. -/
def Call.isUpdateVideo : Call → Bool
  | .updateVideo _ => true
  | _ => false

end Tubely

namespace Tubely

/-! ## Go integers and the classification rule -/

theorem wrap64_of_inInt64 {x : Int} (h : inInt64 x) : wrap64 x = x := by
  unfold inInt64 at h
  unfold wrap64
  omega

theorem tdiv9_inInt64 {x : Int} (h : inInt64 x) : inInt64 (Int.tdiv x 9) := by
  unfold inInt64 at *
  rcases h with ⟨h1, h2⟩
  rcases Int.le_total 0 x with hx | hx
  · have e : Int.tdiv x 9 = x / 9 := Int.tdiv_eq_ediv hx (by decide)
    rw [e]
    constructor <;> omega
  · have hn : (0 : Int) ≤ -x := by omega
    have e : Int.tdiv (-x) 9 = -x / 9 := Int.tdiv_eq_ediv hn (by decide)
    have e2 : Int.tdiv x 9 = -(-x / 9) := by
      rw [← e, ← Int.neg_tdiv, Int.neg_neg]
    rw [e2]
    constructor <;> omega

/-- Multiplying by 16 and dividing by 9 in Go's `int` is the exact computation when the
product does not overflow. -/
theorem goDiv_goMul_16_9 {x : Int} (h : inInt64 (16 * x)) :
    goDiv (goMul 16 x) 9 = Int.tdiv (16 * x) 9 := by
  unfold goDiv goMul
  rw [wrap64_of_inInt64 h, wrap64_of_inInt64 (tdiv9_inInt64 h)]

theorem aspectOf_eq_spec {width height : Int}
    (hw : inInt64 (16 * width)) (hh : inInt64 (16 * height)) :
    aspectOf width height = (specClassify width height).ratio := by
  unfold aspectOf specClassify
  rw [goDiv_goMul_16_9 hw, goDiv_goMul_16_9 hh]
  split_ifs <;> rfl

theorem directoryOf_ratio (o : Orientation) : directoryOf o.ratio = o.name := by
  cases o <;> decide

theorem aspectOf_class (width height : Int) : ∃ o : Orientation, aspectOf width height = o.ratio := by
  unfold aspectOf
  split_ifs
  · exact ⟨.landscape, rfl⟩
  · exact ⟨.portrait, rfl⟩
  · exact ⟨.other, rfl⟩

theorem Orientation.ratio_injective {a b : Orientation} (h : a.ratio = b.ratio) : a = b := by
  cases a <;> cases b <;> first | rfl | (exact absurd h (by decide))

/-! ## Library functions -/

theorem split_of_not_mem {sep : Char} {s : List Char} (h : sep ∉ s) : split sep s = [s] := by
  induction s with
  | nil => rfl
  | cons c cs ih =>
    have hc : c ≠ sep := fun e => h (by simp [e])
    have hcs : sep ∉ cs := fun m => h (by simp [m])
    simp [split, hc, ih hcs]

theorem split_append_sep {sep : Char} {a : List Char} (b : List Char) (h : sep ∉ a) :
    split sep (a ++ sep :: b) = a :: split sep b := by
  induction a with
  | nil => simp [split]
  | cons c cs ih =>
    have hc : c ≠ sep := fun e => h (by simp [e])
    have hcs : sep ∉ cs := fun m => h (by simp [m])
    simp [split, hc, ih hcs]

theorem enc6_mem (n : Nat) : enc6 n ∈ encodeURL := by
  unfold enc6
  have h : n % 64 < encodeURL.length := by
    have : encodeURL.length = 64 := by decide
    omega
  rw [List.getD_eq_getElem _ _ h]
  exact List.getElem_mem h

theorem base64RawURL_subset : ∀ (bs : List Nat) (c : Char), c ∈ base64RawURL bs → c ∈ encodeURL
  | [], c, h => by simp [base64RawURL] at h
  | [a], c, h => by
    simp [base64RawURL] at h
    rcases h with h | h <;> (rw [h]; exact enc6_mem _)
  | [a, b], c, h => by
    simp [base64RawURL] at h
    rcases h with h | h | h <;> (rw [h]; exact enc6_mem _)
  | a :: b :: d :: rest, c, h => by
    simp [base64RawURL] at h
    rcases h with h | h | h | h | h
    · rw [h]; exact enc6_mem _
    · rw [h]; exact enc6_mem _
    · rw [h]; exact enc6_mem _
    · rw [h]; exact enc6_mem _
    · exact base64RawURL_subset rest c h

theorem slash_not_mem_base64RawURL (bs : List Nat) : '/' ∉ base64RawURL bs :=
  fun h => absurd (base64RawURL_subset bs _ h) (by decide)

theorem filepathClean_two {d e : List Char} (hd : '/' ∉ d) (he : '/' ∉ e)
    (hd0 : d ≠ []) (hd1 : d ≠ ['.']) (hd2 : d ≠ ['.', '.'])
    (he0 : e ≠ []) (he1 : e ≠ ['.']) (he2 : e ≠ ['.', '.']) :
    filepathClean (d ++ '/' :: e) = d ++ '/' :: e := by
  cases d with
  | nil => exact absurd rfl hd0
  | cons c cs =>
    have hc : c ≠ '/' := fun e => hd (by simp [e])
    have hs : split '/' (c :: cs ++ '/' :: e) = [c :: cs, e] := by
      rw [split_append_sep e hd, split_of_not_mem he]
    simp only [filepathClean, List.cons_append]
    rw [← List.cons_append, hs]
    simp [cleanStep, hc, hd1, hd2, he0, he1, he2, join]

theorem getAssetPath_mp4 (random : List Nat) :
    getAssetPath random "video/mp4"
      = String.mk (base64RawURL (randomBuffer random) ++ ".mp4".data) := by
  have h : split '/' "video/mp4".data = ["video".data, "mp4".data] := by decide
  simp [getAssetPath, h]

theorem filepathJoin_assetPath (o : Orientation) (random : List Nat) :
    filepathJoin [o.name, getAssetPath random "video/mp4"]
      = o.name ++ "/" ++ String.mk (base64RawURL (randomBuffer random)) ++ ".mp4" := by
  rw [getAssetPath_mp4]
  have hid := slash_not_mem_base64RawURL (randomBuffer random)
  generalize base64RawURL (randomBuffer random) = ident at hid ⊢
  have he : '/' ∉ ident ++ ".mp4".data := by
    simp only [List.mem_append, not_or]
    exact ⟨hid, by decide⟩
  have hlen : 4 ≤ (ident ++ ".mp4".data).length := by simp
  have he0 : ident ++ ".mp4".data ≠ [] := fun e => by rw [e] at hlen; simp at hlen
  have he1 : ident ++ ".mp4".data ≠ ['.'] := fun e => by rw [e] at hlen; simp at hlen
  have he2 : ident ++ ".mp4".data ≠ ['.', '.'] := fun e => by rw [e] at hlen; simp at hlen
  have key : ∀ d : List Char, '/' ∉ d → d ≠ [] → d ≠ ['.'] → d ≠ ['.', '.'] →
      filepathJoin [String.mk d, String.mk (ident ++ ".mp4".data)]
        = String.mk d ++ "/" ++ String.mk ident ++ ".mp4" := by
    intro d h h0 h1 h2
    have hj : filepathClean (d ++ '/' :: (ident ++ ".mp4".data)) = d ++ '/' :: (ident ++ ".mp4".data) :=
      filepathClean_two h he h0 h1 h2 he0 he1 he2
    simp only [filepathJoin, List.map, List.dropWhile, h0, decide_False, join]
    rw [hj]
    apply String.ext
    simp
  cases o
  · exact key "landscape".data (by decide) (by decide) (by decide) (by decide)
  · exact key "portrait".data (by decide) (by decide) (by decide) (by decide)
  · exact key "other".data (by decide) (by decide) (by decide) (by decide)

theorem trimLeftSpace_length_le (v : List Char) : (trimLeftSpace v).length ≤ v.length :=
  (List.dropWhile_sublist isSpace).length_le

theorem consumeToken_length_le (v : List Char) : (consumeToken v).2.length ≤ v.length := by
  unfold consumeToken
  rw [List.span_eq_take_drop]
  exact (List.dropWhile_sublist isTokenChar).length_le

theorem consumeQuoted_length_le : ∀ (n : Nat) (acc rest : List Char), rest.length ≤ n →
    ∀ r, consumeQuoted acc rest = some r → r.2.length ≤ rest.length := by
  intro n
  induction n with
  | zero =>
    intro acc rest hn r h
    cases rest with
    | nil => simp [consumeQuoted] at h
    | cons c cs => simp at hn
  | succ n ih =>
    intro acc rest hn r h
    unfold consumeQuoted at h
    split at h
    · simp at h
    · injection h with h
      subst h
      simp
    · have := ih _ [] (by simp) r h
      simp only [List.length_nil, List.length_cons] at this ⊢
      omega
    · split_ifs at h
      · rename_i d rest2 _
        have := ih _ rest2 (by simp at hn; omega) r h
        simp
        omega
      · rename_i d rest2 _
        have := ih _ (d :: rest2) (by simp at hn ⊢; omega) r h
        simp at this ⊢
        omega
    · split_ifs at h
      rename_i c rest2 _ _ _ _
      have := ih _ rest2 (by simp at hn; omega) r h
      simp
      omega

theorem consumeValue_length_le (v : List Char) : (consumeValue v).2.length ≤ v.length := by
  unfold consumeValue
  split
  · simp
  · rename_i rest
    cases h : consumeQuoted [] rest with
    | none => simp
    | some r =>
      have := consumeQuoted_length_le rest.length [] rest (Nat.le_refl _) r h
      simp only [List.length_cons]
      omega
  · exact consumeToken_length_le v

theorem consumeMediaParam_length_lt (v : List Char) (h : (consumeMediaParam v).1 ≠ []) :
    (consumeMediaParam v).2.2.length < v.length := by
  unfold consumeMediaParam at h ⊢
  split at h
  · rename_i rest0 h0
    have l0 : rest0.length < v.length := by
      have := trimLeftSpace_length_le v
      rw [h0] at this
      simpa using this
    have l1 := consumeToken_length_le (trimLeftSpace rest0)
    have l1' := trimLeftSpace_length_le rest0
    rcases hct : consumeToken (trimLeftSpace rest0) with ⟨param0, rest1⟩
    rw [hct] at h l1
    simp only at h l1 ⊢
    split_ifs at h ⊢ with hp
    · exact absurd rfl h
    · split at h
      · rename_i rest2 h2
        have l2 : rest2.length < rest1.length := by
          have := trimLeftSpace_length_le rest1
          rw [h2] at this
          simpa using this
        have l3 := trimLeftSpace_length_le rest2
        have l4 := consumeValue_length_le (trimLeftSpace rest2)
        rcases hcv : consumeValue (trimLeftSpace rest2) with ⟨value, rest4⟩
        rw [hcv] at h l4
        simp only at h l4 ⊢
        split_ifs at h ⊢ with hv
        · exact absurd rfl h
        · simp only
          omega
      · exact absurd rfl h
  · exact absurd rfl h

theorem loop_messages_differ :
    "mime: invalid media parameter" ≠ "mime: parameter loop did not finish"
    ∧ "mime: duplicate parameter name" ≠ "mime: parameter loop did not finish" := by
  decide

theorem paramRound_next_length_lt {seen seen1 : List (List Char × List Char)}
    {v rest : List Char} (h : paramRound seen v = .next seen1 rest) :
    rest.length < v.length := by
  have lv := trimLeftSpace_length_le v
  have hlt := consumeMediaParam_length_lt (trimLeftSpace v)
  unfold paramRound at h
  generalize trimLeftSpace v = v1 at h hlt lv
  cases v1 with
  | nil => simp at h
  | cons c cs =>
    simp only at h
    rcases hc : consumeMediaParam (c :: cs) with ⟨key, value, rest0⟩
    rw [hc] at h hlt
    simp only at h hlt
    by_cases hk : key = []
    · rw [if_pos hk] at h
      split_ifs at h
    · rw [if_neg hk] at h
      have hl := hlt hk
      split at h
      · split_ifs at h
        injection h with _ hr
        subst hr
        omega
      · injection h with _ hr
        subst hr
        omega

/-- The parameter loop of `ParseMediaType` always finishes within its fuel. -/
theorem parseParams_finishes (fuel : Nat) : ∀ (seen : List (List Char × List Char))
    (v : List Char), v.length < fuel →
    parseParams fuel seen v ≠ some "mime: parameter loop did not finish" := by
  induction fuel with
  | zero => intro seen v h; simp at h
  | succ fuel ih =>
    intro seen v h
    unfold parseParams
    cases hr : paramRound seen v with
    | stop err =>
      simp only
      unfold paramRound at hr
      intro e
      subst e
      generalize trimLeftSpace v = v1 at hr
      cases v1 with
      | nil => simp at hr
      | cons c cs =>
        simp only at hr
        rcases hc : consumeMediaParam (c :: cs) with ⟨key, value, rest0⟩
        rw [hc] at hr
        simp only at hr
        split_ifs at hr
        · injection hr with hr
          exact absurd hr (by simp)
        · injection hr with hr
          injection hr with hr
          exact loop_messages_differ.1 hr
        · split at hr
          · split_ifs at hr
            injection hr with hr
            injection hr with hr
            exact loop_messages_differ.2 hr
          · simp at hr
    | next seen1 rest =>
      simp only
      exact ih seen1 rest (by have := paramRound_next_length_lt hr; omega)

/-- The fuel of the parameter loop is never exhausted: `ParseMediaType` is total. -/
theorem ParseMediaType_total (v : String) :
    ParseMediaType v ≠ .error "mime: parameter loop did not finish" := by
  unfold ParseMediaType
  simp only
  split
  · rename_i e he
    intro h
    injection h with h
    subst h
    unfold checkMediaTypeDisposition at he
    simp only at he
    split_ifs at he
    · exact absurd he (by decide)
    · split at he
      · split_ifs at he
        · exact absurd he (by decide)
        · exact absurd he (by decide)
      · exact absurd he (by decide)
  · split
    · rename_i e he
      intro h
      injection h with h
      subst h
      exact parseParams_finishes _ _ _ (Nat.lt_succ_self _) he
    · simp

/-! ## Storage -/

theorem lookup_filter_ne_self (p : String) (l : List (String × Bytes)) :
    (l.filter (fun f => f.1 ≠ p)).lookup p = none := by
  simp
  intro a b _ h e
  exact h e.symm

theorem lookup_filter_of_none (p q : String) (l : List (String × Bytes))
    (h : l.lookup p = none) : (l.filter (fun f => f.1 ≠ q)).lookup p = none := by
  simp at h ⊢
  intro a b hm _
  exact h a b hm

theorem World.hasFile_remove (w : World) (p : String) : (w.remove p).hasFile p = false := by
  have h := lookup_filter_ne_self p w.files
  simp only [World.hasFile, World.remove, h]
  rfl

theorem World.hasFile_remove_of_false (w : World) (p q : String) (h : w.hasFile p = false) :
    (w.remove q).hasFile p = false := by
  have h0 : w.files.lookup p = none := by
    cases hl : w.files.lookup p with
    | none => rfl
    | some b => simp [World.hasFile, hl] at h
  have h1 := lookup_filter_of_none p q w.files h0
  simp only [World.hasFile, World.remove, h1]
  rfl

theorem processing_ne (name : String) : name ++ ".processing" ≠ name := by
  intro h
  have := congrArg String.length h
  simp only [String.length_append] at this
  have h11 : ".processing".length = 11 := by decide
  omega

theorem World.hasFile_write_of_false (w : World) (p q : String) (c : Bytes) (hne : p ≠ q)
    (h : w.hasFile p = false) : (w.write q c).hasFile p = false := by
  have h0 : w.files.lookup p = none := by
    cases hl : w.files.lookup p with
    | none => rfl
    | some b => simp [World.hasFile, hl] at h
  have h1 := lookup_filter_of_none p q w.files h0
  have h2 : (p == q) = false := by simpa using hne
  simp only [World.hasFile, World.write, List.lookup, h2, h1]
  rfl

theorem GetVideo_ID {w : World} {id : String} {vid : Video} (h : GetVideo w id = some vid) :
    vid.ID = id := by
  have := List.find?_some h
  simpa using this

theorem find?_map_update (videos : List Video) (new : Video) {id : String} {vid : Video}
    (hnew : new.ID = id) (h : videos.find? (fun v => v.ID = id) = some vid) :
    (videos.map (fun v => if v.ID = new.ID then new else v)).find? (fun v => v.ID = id)
      = some new := by
  induction videos with
  | nil => simp at h
  | cons v vs ih =>
    by_cases hv : v.ID = id
    · simp only [List.map, List.find?, hnew, hv, if_true, decide_True]
    · have h2 : vs.find? (fun v => v.ID = id) = some vid := by
        simpa [List.find?, hv] using h
      have h3 := ih h2
      simp only [List.map, List.find?, hnew, hv, if_false, decide_False]
      rw [hnew] at h3
      exact h3

theorem GetVideo_UpdateVideo {w w2 : World} {id : String} {vid new : Video}
    (hnew : new.ID = id) (h : GetVideo w id = some vid)
    (hu : UpdateVideo w false new = some w2) : GetVideo w2 id = some new := by
  simp [UpdateVideo] at hu
  subst hu
  exact find?_map_update w.videos new hnew h

theorem ParseMultipartForm_videos (w : World) (body : Bytes) (partType : Option String)
    (limit : Nat) (temp : String) :
    (ParseMultipartForm w body partType limit temp).videos = w.videos := by
  unfold ParseMultipartForm
  split
  · rfl
  · split_ifs <;> rfl

theorem ParseMultipartForm_objects (w : World) (body : Bytes) (partType : Option String)
    (limit : Nat) (temp : String) :
    (ParseMultipartForm w body partType limit temp).objects = w.objects := by
  unfold ParseMultipartForm
  split
  · rfl
  · split_ifs <;> rfl

/-- What `handlerUploadVideo` does with a request that gets as far as creating the staged
file: the rest of the run is `uploadStaged`, followed by the deferred removal. -/
theorem handlerUploadVideo_staged (cfg : apiConfig) (w : World) (r : VideoRequest)
    {id token user fileType name : String} {vid : Video}
    (hid : r.videoID = some id) (htoken : r.bearerToken = some token)
    (hjwt : r.validateJWT = some user) (hget : GetVideo w id = some vid)
    (hown : vid.UserID = user) (hpart : r.partType = some fileType)
    (hparse : ParseMediaType fileType = .ok "video/mp4") (htemp : r.createTemp = some name) :
    handlerUploadVideo cfg w r =
      ⟨((uploadStaged cfg
          ((ParseMultipartForm w r.Body r.partType defaultMaxMemory r.multipartTemp).write name [])
          r vid "video/mp4" r.Body name).world).remove name,
        (uploadStaged cfg
          ((ParseMultipartForm w r.Body r.partType defaultMaxMemory r.multipartTemp).write name [])
          r vid "video/mp4" r.Body name).response,
        .createTemp :: (uploadStaged cfg
          ((ParseMultipartForm w r.Body r.partType defaultMaxMemory r.multipartTemp).write name [])
          r vid "video/mp4" r.Body name).calls
          ++ [.remove name]⟩ := by
  simp [handlerUploadVideo, FormFile, hid, htoken, hjwt, hget, hown, hpart, hparse, htemp]

/-- What `handlerUploadVideo` does with a request that gets as far as opening the remuxed
file: the part of the run up to there is determined, the rest is `uploadProcessed`. -/
theorem handlerUploadVideo_upload (cfg : apiConfig) (w : World) (r : VideoRequest)
    {id token user fileType name : String} {vid : Video} {s : Stream} {more : List Stream}
    {output : Bytes}
    (hid : r.videoID = some id) (htoken : r.bearerToken = some token)
    (hjwt : r.validateJWT = some user) (hget : GetVideo w id = some vid)
    (hown : vid.UserID = user) (hpart : r.partType = some fileType)
    (hparse : ParseMediaType fileType = .ok "video/mp4") (htemp : r.createTemp = some name)
    (hcopy : r.copyError = none) (hseek : r.seekError = false)
    (hprobe : r.probe = .streams (s :: more)) (hremux : r.remux = .done output) :
    handlerUploadVideo cfg w r =
      (let key := filepathJoin
          [directoryOf (aspectOf s.Width s.Height), getAssetPath r.random "video/mp4"]
       let processed := name ++ ".processing"
       let out := uploadProcessed cfg
          ((((ParseMultipartForm w r.Body r.partType defaultMaxMemory r.multipartTemp).write name []).write name r.Body).write
            processed output)
          r vid "video/mp4" key processed
       ⟨(out.world.remove processed).remove name, out.response,
        .createTemp :: ([.copy name r.Body.length, .ffprobe name, .ffmpeg name processed]
          ++ out.calls ++ [.remove processed]) ++ [.remove name]⟩) := by
  simp [handlerUploadVideo, uploadStaged, processVideoForFastStart, FormFile,
    getVideoAspectRatio, hid, htoken, hjwt, hget, hown, hpart, hparse, htemp, hcopy, hseek,
    hprobe, hremux]

theorem handlerUploadVideo_createTemp_inv (cfg : apiConfig) (w : World) (r : VideoRequest)
    (h : Call.createTemp ∈ (handlerUploadVideo cfg w r).calls) :
    ∃ (id token user fileType : String) (vid : Video),
      r.videoID = some id ∧ r.bearerToken = some token ∧ r.validateJWT = some user ∧
      GetVideo w id = some vid ∧ vid.UserID = user ∧ r.partType = some fileType ∧
      ParseMediaType fileType = .ok "video/mp4" := by
  unfold handlerUploadVideo at h
  cases hid : r.videoID with
  | none => simp [hid] at h
  | some id =>
  cases htoken : r.bearerToken with
  | none => simp [hid, htoken] at h
  | some token =>
  cases hjwt : r.validateJWT with
  | none => simp [hid, htoken, hjwt] at h
  | some user =>
  cases hget : GetVideo w id with
  | none => simp [hid, htoken, hjwt, hget] at h
  | some vid =>
  by_cases hown : vid.UserID = user
  swap
  · simp [hid, htoken, hjwt, hget, hown] at h
  cases hpart : r.partType with
  | none => simp [hid, htoken, hjwt, hget, hown, hpart, FormFile] at h
  | some fileType =>
  cases hparse : ParseMediaType fileType with
  | error e => simp [hid, htoken, hjwt, hget, hown, hpart, hparse, FormFile] at h
  | ok mediaType =>
  by_cases hmt : mediaType = "video/mp4"
  swap
  · simp [hid, htoken, hjwt, hget, hown, hpart, hparse, hmt, FormFile] at h
  subst hmt
  exact ⟨id, token, user, fileType, vid, rfl, rfl, rfl, hget, hown, rfl, hparse⟩

theorem handlerUploadVideo_success_inv (cfg : apiConfig) (w : World) (r : VideoRequest)
    (h : (handlerUploadVideo cfg w r).response.isSuccess = true) :
    ∃ (id token user fileType name : String) (vid : Video) (s : Stream) (more : List Stream)
      (output : Bytes),
      r.videoID = some id ∧ r.bearerToken = some token ∧ r.validateJWT = some user ∧
      GetVideo w id = some vid ∧ vid.UserID = user ∧ r.partType = some fileType ∧
      ParseMediaType fileType = .ok "video/mp4" ∧ r.createTemp = some name ∧
      r.copyError = none ∧ r.seekError = false ∧ r.probe = .streams (s :: more) ∧
      r.remux = .done output ∧ r.openError = false ∧ r.updateVideoError = false := by
  unfold handlerUploadVideo at h
  cases hid : r.videoID with
  | none => simp [hid, Response.isSuccess] at h
  | some id =>
  cases htoken : r.bearerToken with
  | none => simp [hid, htoken, Response.isSuccess] at h
  | some token =>
  cases hjwt : r.validateJWT with
  | none => simp [hid, htoken, hjwt, Response.isSuccess] at h
  | some user =>
  cases hget : GetVideo w id with
  | none => simp [hid, htoken, hjwt, hget, Response.isSuccess] at h
  | some vid =>
  by_cases hown : vid.UserID = user
  swap
  · simp [hid, htoken, hjwt, hget, hown, Response.isSuccess] at h
  cases hpart : r.partType with
  | none => simp [hid, htoken, hjwt, hget, hown, hpart, FormFile, Response.isSuccess] at h
  | some fileType =>
  cases hparse : ParseMediaType fileType with
  | error e =>
    simp [hid, htoken, hjwt, hget, hown, hpart, hparse, FormFile, Response.isSuccess] at h
  | ok mediaType =>
  by_cases hmt : mediaType = "video/mp4"
  swap
  · simp [hid, htoken, hjwt, hget, hown, hpart, hparse, hmt, FormFile, Response.isSuccess] at h
  subst hmt
  cases htemp : r.createTemp with
  | none =>
    simp [hid, htoken, hjwt, hget, hown, hpart, hparse, htemp, FormFile, Response.isSuccess] at h
  | some name =>
  simp only [hid, htoken, hjwt, hget, hown, hpart, hparse, htemp, FormFile, Option.map] at h
  simp only [ne_eq, not_true_eq_false, ite_false, if_false] at h
  unfold uploadStaged at h
  cases hcopy : r.copyError with
  | some n => simp [hcopy, Response.isSuccess] at h
  | none =>
  cases hseek : r.seekError with
  | true => simp [hcopy, hseek, Response.isSuccess] at h
  | false =>
  cases hprobe : r.probe with
  | runError => simp [hcopy, hseek, hprobe, getVideoAspectRatio, Response.isSuccess] at h
  | unmarshalError => simp [hcopy, hseek, hprobe, getVideoAspectRatio, Response.isSuccess] at h
  | streams ss =>
  cases ss with
  | nil => simp [hcopy, hseek, hprobe, getVideoAspectRatio, Response.isSuccess] at h
  | cons s more =>
  cases hremux : r.remux with
  | failed left =>
    cases left <;>
    simp [hcopy, hseek, hprobe, hremux, getVideoAspectRatio, processVideoForFastStart,
      Response.isSuccess] at h
  | done output =>
  cases hopen : r.openError with
  | true =>
    simp [hcopy, hseek, hprobe, hremux, hopen, getVideoAspectRatio, processVideoForFastStart,
      uploadProcessed, Response.isSuccess] at h
  | false =>
  cases hupd : r.updateVideoError with
  | true =>
    simp [hcopy, hseek, hprobe, hremux, hopen, hupd, getVideoAspectRatio,
      processVideoForFastStart, uploadProcessed, UpdateVideo, Response.isSuccess] at h
  | false =>
    exact ⟨id, token, user, fileType, name, vid, s, more, output, rfl, rfl, rfl, hget,
      hown, rfl, hparse, rfl, rfl, rfl, rfl, rfl, rfl, rfl⟩

theorem uploadStaged_processing_removed (cfg : apiConfig) (w : World) (r : VideoRequest)
    (vid : Video) (mediaType : String) (body : Bytes) (name : String)
    (hfresh : w.hasFile (name ++ ".processing") = false)
    (hremux : ∀ b, r.remux = .failed (some b) →
      Call.ffmpeg name (name ++ ".processing")
        ∉ (uploadStaged cfg w r vid mediaType body name).calls) :
    (uploadStaged cfg w r vid mediaType body name).world.hasFile (name ++ ".processing")
      = false := by
  have hne := processing_ne name
  unfold uploadStaged at hremux ⊢
  cases hc : r.copyError with
  | some n => exact World.hasFile_write_of_false _ _ _ _ hne hfresh
  | none =>
  have h1 := World.hasFile_write_of_false w _ name body hne hfresh
  cases hs : r.seekError with
  | true => exact h1
  | false =>
  cases hp : getVideoAspectRatio r.probe with
  | error e => exact h1
  | ok aspectRatio =>
  cases hr : r.remux with
  | failed left =>
    cases left with
    | none => simpa [processVideoForFastStart] using h1
    | some b =>
      exfalso
      have := hremux b hr
      simp [hc, hs, hp, hr, processVideoForFastStart] at this
  | done output =>
    simp only [processVideoForFastStart]
    exact World.hasFile_remove _ _

/-- C1: for every width and height of the first probed stream for which `16 * width` and
`16 * height` do not overflow, `getVideoAspectRatio` returns the class of the reference rule
(landscape, written "16:9", if `width == 16 * height / 9`, else portrait, written "9:16", if
`height == 16 * width / 9`, else other), and the handler's directory is that class's name;
1920x1080 is landscape, 1080x1920 is portrait and 1000x1000 is other. -/
theorem getVideoAspectRatio_matches_reference (width height : Int) (more : List Stream)
    (hw : inInt64 (16 * width)) (hh : inInt64 (16 * height)) :
    (getVideoAspectRatio (.streams (⟨width, height⟩ :: more))
        = .ok (specClassify width height).ratio
      ∧ directoryOf (specClassify width height).ratio = (specClassify width height).name)
    ∧ getVideoAspectRatio (.streams [⟨1920, 1080⟩]) = .ok "16:9"
    ∧ getVideoAspectRatio (.streams [⟨1080, 1920⟩]) = .ok "9:16"
    ∧ getVideoAspectRatio (.streams [⟨1000, 1000⟩]) = .ok "other" := by
  refine ⟨⟨?_, directoryOf_ratio _⟩, by decide, by decide, by decide⟩
  simp only [getVideoAspectRatio]
  rw [aspectOf_eq_spec hw hh]

/-- C1 at 1920x1080. -/
theorem getVideoAspectRatio_matches_reference_witness :
    (inInt64 (16 * 1920) ∧ inInt64 (16 * 1080))
    ∧ (getVideoAspectRatio (.streams (⟨1920, 1080⟩ :: []))
        = .ok (specClassify 1920 1080).ratio
      ∧ directoryOf (specClassify 1920 1080).ratio = (specClassify 1920 1080).name)
    ∧ getVideoAspectRatio (.streams [⟨1920, 1080⟩]) = .ok "16:9"
    ∧ getVideoAspectRatio (.streams [⟨1080, 1920⟩]) = .ok "9:16"
    ∧ getVideoAspectRatio (.streams [⟨1000, 1000⟩]) = .ok "other" :=
  ⟨⟨by decide, by decide⟩,
    getVideoAspectRatio_matches_reference 1920 1080 [] (by decide) (by decide)⟩

/-- C2, as stated, fails: at 0x0 and at 1x1 the height equals `16 * width / 9`, yet the
landscape test, which comes first, holds too, `getVideoAspectRatio` returns "16:9" and
`handlerUploadVideo` stores the video under `landscape`. -/
theorem portrait_condition_overlaps_landscape :
    ((0 : Int) = Int.tdiv (16 * 0) 9 ∧ (0 : Int) = goDiv (goMul 16 0) 9
      ∧ getVideoAspectRatio (.streams [⟨0, 0⟩]) = .ok "16:9")
    ∧ ((1 : Int) = Int.tdiv (16 * 1) 9 ∧ (1 : Int) = goDiv (goMul 16 1) 9
      ∧ getVideoAspectRatio (.streams [⟨1, 1⟩]) = .ok "16:9")
    ∧ getVideoAspectRatio squareUpload.probe ≠ .ok "9:16"
    ∧ (handlerUploadVideo sampleConfig sampleWorld squareUpload).world.objects.map (·.Key)
        = ["landscape/AQIDAAAAAAAAAAAAAAAAAAAAAAAAAAAAAAAAAAAAAAA.mp4"] := by
  decide

/-- C2, amended: for every width and height of the first stream with
`height == 16 * width / 9` and not `width == 16 * height / 9` (both in Go's `int`
arithmetic), `getVideoAspectRatio` returns "9:16", the directory is `portrait`, and a
successful run of `handlerUploadVideo` puts the object under `portrait/`. -/
theorem portrait_when_not_landscape (cfg : apiConfig) (w : World) (r : VideoRequest)
    (width height : Int) (more : List Stream)
    (hprobe : r.probe = .streams (⟨width, height⟩ :: more))
    (hp : height = goDiv (goMul 16 width) 9) (hl : width ≠ goDiv (goMul 16 height) 9) :
    getVideoAspectRatio r.probe = .ok "9:16" ∧ directoryOf "9:16" = "portrait"
    ∧ ((handlerUploadVideo cfg w r).response.isSuccess = true →
      Call.putObject cfg.s3Bucket
        ("portrait" ++ "/" ++ String.mk (base64RawURL (randomBuffer r.random)) ++ ".mp4")
        "video/mp4" ∈ (handlerUploadVideo cfg w r).calls) := by
  have ha : aspectOf width height = "9:16" := by
    unfold aspectOf
    rw [if_neg hl, if_pos hp]
  refine ⟨by rw [hprobe]; simp [getVideoAspectRatio, ha], by decide, fun hs => ?_⟩
  obtain ⟨id, token, user, fileType, name, vid, s, more2, output, hid, htoken, hjwt, hget, hown,
    hpart, hparse, htemp, hcopy, hseek, hprobe2, hremux, hopen, hupd⟩ :=
    handlerUploadVideo_success_inv cfg w r hs
  have hsame : s = ⟨width, height⟩ := by
    rw [hprobe] at hprobe2
    injection hprobe2 with h1
    injection h1 with h2 _
    exact h2.symm
  subst hsame
  rw [handlerUploadVideo_upload cfg w r hid htoken hjwt hget hown hpart hparse htemp hcopy hseek
    hprobe2 hremux]
  have hkey := filepathJoin_assetPath .portrait r.random
  simp only [Orientation.name] at hkey
  have hd : directoryOf "9:16" = "portrait" := by decide
  simp only [ha, hd, hkey]
  simp [uploadProcessed, hopen, hupd, UpdateVideo]

/-- C2, amended, at the upload of a 1080x1920 video. -/
theorem portrait_when_not_landscape_witness :
    (portraitUpload.probe = .streams (⟨1080, 1920⟩ :: [])
      ∧ (1920 : Int) = goDiv (goMul 16 1080) 9 ∧ (1080 : Int) ≠ goDiv (goMul 16 1920) 9
      ∧ (handlerUploadVideo sampleConfig sampleWorld portraitUpload).response.isSuccess = true)
    ∧ getVideoAspectRatio portraitUpload.probe = .ok "9:16" ∧ directoryOf "9:16" = "portrait"
    ∧ ((handlerUploadVideo sampleConfig sampleWorld portraitUpload).response.isSuccess = true →
      Call.putObject sampleConfig.s3Bucket
        ("portrait" ++ "/" ++ String.mk (base64RawURL (randomBuffer portraitUpload.random))
          ++ ".mp4")
        "video/mp4" ∈ (handlerUploadVideo sampleConfig sampleWorld portraitUpload).calls) :=
  ⟨⟨rfl, by decide, by decide, by decide⟩,
    portrait_when_not_landscape sampleConfig sampleWorld portraitUpload 1080 1920 [] rfl
      (by decide) (by decide)⟩

/-! ## Upload before metadata (C3) -/

/-- C3, the code at a request whose `PutObject` fails: the handler still calls `UpdateVideo`,
answers 200 with the record, and leaves a record whose `VideoURL` names an object that the
store does not hold. -/
theorem handlerUploadVideo_ignores_PutObject_error :
    putFailsUpload.putObjectError = true
    ∧ (handlerUploadVideo sampleConfig sampleWorld putFailsUpload).response
        = .json StatusOK
            { ID := "v1", UserID := "alice", ThumbnailURL := none,
              VideoURL := some ("https://d111.cloudfront.net/" ++
                "landscape/AQIDAAAAAAAAAAAAAAAAAAAAAAAAAAAAAAAAAAAAAAA.mp4") }
    ∧ (handlerUploadVideo sampleConfig sampleWorld putFailsUpload).calls.any Call.isUpdateVideo
        = true
    ∧ (handlerUploadVideo sampleConfig sampleWorld putFailsUpload).world.objects = []
    ∧ (GetVideo (handlerUploadVideo sampleConfig sampleWorld putFailsUpload).world "v1").map
        (·.VideoURL)
        = some (some ("https://d111.cloudfront.net/" ++
            "landscape/AQIDAAAAAAAAAAAAAAAAAAAAAAAAAAAAAAAAAAAAAAA.mp4")) := by
  decide

/-- The response and the calls of `handlerUploadVideo` do not depend on whether `PutObject`
fails. -/
theorem handlerUploadVideo_PutObject_result_unused (cfg : apiConfig) (w : World)
    (r : VideoRequest) :
    (handlerUploadVideo cfg w { r with putObjectError := true }).response
      = (handlerUploadVideo cfg w { r with putObjectError := false }).response
    ∧ (handlerUploadVideo cfg w { r with putObjectError := true }).calls
      = (handlerUploadVideo cfg w { r with putObjectError := false }).calls := by
  simp only [handlerUploadVideo, uploadStaged, uploadProcessed, UpdateVideo]
  constructor <;> (repeat' split) <;> simp_all

/-! ## The owner check (C4) -/

/-- In `handlerUploadVideo` the owner check comes before every storage call: a request of a
user who does not own the video is answered 401 with the storage untouched. -/
theorem handlerUploadVideo_not_owner (cfg : apiConfig) (w : World) (r : VideoRequest)
    {id token user : String} {vid : Video}
    (hid : r.videoID = some id) (htoken : r.bearerToken = some token)
    (hjwt : r.validateJWT = some user) (hget : GetVideo w id = some vid)
    (hown : vid.UserID ≠ user) :
    handlerUploadVideo cfg w r = ⟨w, .error StatusUnauthorized "not video owner", []⟩ := by
  simp [handlerUploadVideo, hid, htoken, hjwt, hget, hown]

/-- C4, the code at a thumbnail request of a user who does not own the video: the handler
answers 401 only after it has created the file under the assets directory and copied the
upload into it. -/
theorem handlerUploadThumbnail_writes_before_owner_check :
    GetVideo sampleWorld "v1"
      = some { ID := "v1", UserID := "alice", ThumbnailURL := none, VideoURL := none }
    ∧ strangerThumbnail.validateJWT = some "mallory"
    ∧ (handlerUploadThumbnail sampleConfig sampleWorld strangerThumbnail).response
        = .error StatusUnauthorized "unauthorized video user"
    ∧ sampleWorld.files = []
    ∧ (handlerUploadThumbnail sampleConfig sampleWorld strangerThumbnail).world.files
        = [("assets/AQIDAAAAAAAAAAAAAAAAAAAAAAAAAAAAAAAAAAAAAAA.png", [137, 80, 78, 71])]
    ∧ (handlerUploadThumbnail sampleConfig sampleWorld strangerThumbnail).calls
        = [.create "assets/AQIDAAAAAAAAAAAAAAAAAAAAAAAAAAAAAAAAAAAAAAA.png",
           .copy "assets/AQIDAAAAAAAAAAAAAAAAAAAAAAAAAAAAAAAAAAAAAAA.png" 4] := by
  decide

/-! ## The content-type check (C5, C6) -/

/-- C6, the code at a part declared `image/png; charset=utf-8`: the handler accepts it, the
parsed media type is `image/png`, and the extension in the file name and in the thumbnail URL
is `png; charset=utf-8`. -/
theorem handlerUploadThumbnail_extension_from_raw_header :
    ParseMediaType "image/png; charset=utf-8" = .ok "image/png"
    ∧ fileExtensionOf "image/png; charset=utf-8" = some "png; charset=utf-8"
    ∧ (handlerUploadThumbnail sampleConfig sampleWorld charsetThumbnail).world.files
        = [("assets/AQIDAAAAAAAAAAAAAAAAAAAAAAAAAAAAAAAAAAAAAAA.png; charset=utf-8",
            [137, 80, 78, 71])]
    ∧ (handlerUploadThumbnail sampleConfig sampleWorld charsetThumbnail).response
        = .json StatusOK
            { ID := "v1", UserID := "alice", VideoURL := none,
              ThumbnailURL := some ("http://localhost:8091/assets/" ++
                "AQIDAAAAAAAAAAAAAAAAAAAAAAAAAAAAAAAAAAAAAAA.png; charset=utf-8") } := by
  decide

/-! ## The size ceiling (C7) -/

theorem oversizedUpload_Body_length : oversizedUpload.Body.length = 1 <<< 30 + 1 := by
  show (List.replicate (1 <<< 30 + 1) 0).length = 1 <<< 30 + 1
  exact List.length_replicate _ _

/-- C7, the code at a request whose body has `(1 << 30) + 1` bytes: the reader that
`http.MaxBytesReader` returns would fail on that body, but it is discarded; the handler copies
all `(1 << 30) + 1` bytes into the staged file and answers 200. -/
theorem handlerUploadVideo_no_size_limit :
    oversizedUpload.Body.length = 1 <<< 30 + 1
    ∧ MaxBytesReader oversizedUpload.Body (1 <<< 30) = .error "http: request body too large"
    ∧ (handlerUploadVideo sampleConfig sampleWorld oversizedUpload).response
        = .json StatusOK
            { ID := "v1", UserID := "alice", ThumbnailURL := none,
              VideoURL := some ("https://d111.cloudfront.net/" ++
                "landscape/AQIDAAAAAAAAAAAAAAAAAAAAAAAAAAAAAAAAAAAAAAA.mp4") }
    ∧ Call.copy "/tmp/tubely-upload.mp4123" (1 <<< 30 + 1)
        ∈ (handlerUploadVideo sampleConfig sampleWorld oversizedUpload).calls := by
  have hlen := oversizedUpload_Body_length
  have hrun := @handlerUploadVideo_upload sampleConfig sampleWorld oversizedUpload
    "v1" "token" "alice" "video/mp4" "/tmp/tubely-upload.mp4123"
    { ID := "v1", UserID := "alice", ThumbnailURL := none, VideoURL := none }
    ⟨1920, 1080⟩ [] [0, 0, 0, 32]
    rfl rfl rfl (by decide) rfl rfl (by decide) rfl rfl rfl rfl rfl
  have hkey : filepathJoin [directoryOf (aspectOf 1920 1080),
      getAssetPath oversizedUpload.random "video/mp4"]
      = "landscape/AQIDAAAAAAAAAAAAAAAAAAAAAAAAAAAAAAAAAAAAAAA.mp4" := by decide
  have hopen : oversizedUpload.openError = false := rfl
  have hupd : oversizedUpload.updateVideoError = false := rfl
  have hcfg : sampleConfig.s3CfDistribution ++ "/"
      ++ "landscape/AQIDAAAAAAAAAAAAAAAAAAAAAAAAAAAAAAAAAAAAAAA.mp4"
      = "https://d111.cloudfront.net/" ++
        "landscape/AQIDAAAAAAAAAAAAAAAAAAAAAAAAAAAAAAAAAAAAAAA.mp4" := by decide
  refine ⟨hlen, ?_, ?_, ?_⟩
  · simp only [MaxBytesReader, hlen]
    rfl
  · rw [hrun]
    simp only [hkey, uploadProcessed, hopen, hupd, UpdateVideo, hcfg]
    rfl
  · rw [hrun]
    simp only [hlen]
    simp

/-! ## Temporary files (C8) -/

/-- When `handlerUploadVideo` returns after creating the staged file, the staged file is
gone; and `<staged path>.processing`, if it did not exist once the form was parsed, does not
exist either, unless the handler ran `ffmpeg` and `ffmpeg` exited non-zero after creating
it. -/
theorem handlerUploadVideo_removes_temporary_files (cfg : apiConfig) (w : World)
    (r : VideoRequest) (name : String)
    (hcall : Call.createTemp ∈ (handlerUploadVideo cfg w r).calls)
    (htemp : r.createTemp = some name) :
    (handlerUploadVideo cfg w r).world.hasFile name = false
    ∧ ((ParseMultipartForm w r.Body r.partType defaultMaxMemory r.multipartTemp).hasFile
          (name ++ ".processing") = false →
        (∀ b, r.remux = .failed (some b) →
          Call.ffmpeg name (name ++ ".processing") ∉ (handlerUploadVideo cfg w r).calls) →
        (handlerUploadVideo cfg w r).world.hasFile (name ++ ".processing") = false) := by
  obtain ⟨id, token, user, fileType, vid, hid, htoken, hjwt, hget, hown, hpart, hparse⟩ :=
    handlerUploadVideo_createTemp_inv cfg w r hcall
  rw [handlerUploadVideo_staged cfg w r hid htoken hjwt hget hown hpart hparse htemp]
  refine ⟨World.hasFile_remove _ _, fun hfresh hremux => ?_⟩
  apply World.hasFile_remove_of_false
  apply uploadStaged_processing_removed
  · exact World.hasFile_write_of_false _ _ _ _ (processing_ne name) hfresh
  · intro b hb hmem
    exact hremux b hb (by simp [hmem])

/-- When the probe fails, `handlerUploadVideo` answers 500 and neither the staged file nor a
`<staged path>.processing` that did not exist once the form was parsed is left. -/
theorem handlerUploadVideo_probe_failure (cfg : apiConfig) (w : World) (r : VideoRequest)
    {id token user fileType name e : String} {vid : Video}
    (hid : r.videoID = some id) (htoken : r.bearerToken = some token)
    (hjwt : r.validateJWT = some user) (hget : GetVideo w id = some vid)
    (hown : vid.UserID = user) (hpart : r.partType = some fileType)
    (hparse : ParseMediaType fileType = .ok "video/mp4") (htemp : r.createTemp = some name)
    (hcopy : r.copyError = none) (hseek : r.seekError = false)
    (hprobe : getVideoAspectRatio r.probe = .error e)
    (hfresh : (ParseMultipartForm w r.Body r.partType defaultMaxMemory r.multipartTemp).hasFile
      (name ++ ".processing") = false) :
    (handlerUploadVideo cfg w r).response
      = .error StatusInternalServerError "Couldn't get aspect ratio for video"
    ∧ (handlerUploadVideo cfg w r).world.hasFile name = false
    ∧ (handlerUploadVideo cfg w r).world.hasFile (name ++ ".processing") = false := by
  rw [handlerUploadVideo_staged cfg w r hid htoken hjwt hget hown hpart hparse htemp]
  simp only [uploadStaged, hcopy, hseek, hprobe, Bool.false_eq_true, if_false]
  refine ⟨trivial, World.hasFile_remove _ _, ?_⟩
  apply World.hasFile_remove_of_false
  apply World.hasFile_write_of_false _ _ _ _ (processing_ne name)
  exact World.hasFile_write_of_false _ _ _ _ (processing_ne name) hfresh

/-- C8, the code at a request whose `ffmpeg` run exits non-zero after creating its output
file: the handler answers 500 and returns with `<staged path>.processing`, which did not
exist before the request, still on disk. -/
theorem handlerUploadVideo_leaves_failed_remux_output :
    remuxFailsUpload.createTemp = some "/tmp/tubely-upload.mp4123"
    ∧ remuxFailsUpload.remux = .failed (some [])
    ∧ sampleWorld.hasFile "/tmp/tubely-upload.mp4123.processing" = false
    ∧ (handlerUploadVideo sampleConfig sampleWorld remuxFailsUpload).response
        = .error StatusInternalServerError "Error processing video"
    ∧ (handlerUploadVideo sampleConfig sampleWorld remuxFailsUpload).world.hasFile
        "/tmp/tubely-upload.mp4123.processing" = true
    ∧ (handlerUploadVideo sampleConfig sampleWorld remuxFailsUpload).world.files
        = [("/tmp/tubely-upload.mp4123.processing", [])] := by
  decide

/-! ## Failure of the metadata update (C9) -/

/-- In `handlerUploadVideo` a failing `UpdateVideo` is answered 500, and the object that was
put stays in the store. -/
theorem handlerUploadVideo_update_failure (cfg : apiConfig) (w : World) (r : VideoRequest)
    {id token user fileType name : String} {vid : Video} {s : Stream} {more : List Stream}
    {output : Bytes}
    (hid : r.videoID = some id) (htoken : r.bearerToken = some token)
    (hjwt : r.validateJWT = some user) (hget : GetVideo w id = some vid)
    (hown : vid.UserID = user) (hpart : r.partType = some fileType)
    (hparse : ParseMediaType fileType = .ok "video/mp4") (htemp : r.createTemp = some name)
    (hcopy : r.copyError = none) (hseek : r.seekError = false)
    (hprobe : r.probe = .streams (s :: more)) (hremux : r.remux = .done output)
    (hopen : r.openError = false) (hput : r.putObjectError = false)
    (hupd : r.updateVideoError = true) :
    (handlerUploadVideo cfg w r).response
      = .error StatusInternalServerError "Couldn't update video data"
    ∧ (handlerUploadVideo cfg w r).world.objects.map (·.Key)
      = filepathJoin [directoryOf (aspectOf s.Width s.Height), getAssetPath r.random "video/mp4"]
        :: (w.objects.filter (fun x => ¬ (x.Bucket = cfg.s3Bucket ∧ x.Key = filepathJoin
          [directoryOf (aspectOf s.Width s.Height), getAssetPath r.random "video/mp4"]))).map
          (·.Key) := by
  rw [handlerUploadVideo_upload cfg w r hid htoken hjwt hget hown hpart hparse htemp hcopy hseek
    hprobe hremux]
  simp [uploadProcessed, hopen, hput, hupd, UpdateVideo, World.put, World.write, World.remove,
    ParseMultipartForm_objects]

/-- C9, the code at a thumbnail request whose `UpdateVideo` fails: the handler answers 200
with the record, and the metadata store still holds the record without the thumbnail URL. -/
theorem handlerUploadThumbnail_ignores_UpdateVideo_error :
    updateFailsThumbnail.updateVideoError = true
    ∧ (handlerUploadThumbnail sampleConfig sampleWorld updateFailsThumbnail).response
        = .json StatusOK
            { ID := "v1", UserID := "alice", VideoURL := none,
              ThumbnailURL := some ("http://localhost:8091/assets/" ++
                "AQIDAAAAAAAAAAAAAAAAAAAAAAAAAAAAAAAAAAAAAAA.png") }
    ∧ (handlerUploadThumbnail sampleConfig sampleWorld updateFailsThumbnail).response.isError
        = false
    ∧ (handlerUploadThumbnail sampleConfig sampleWorld updateFailsThumbnail).world.videos
        = [{ ID := "v1", UserID := "alice", ThumbnailURL := none, VideoURL := none }] := by
  decide

/-! ## The storage key (C10) -/

/-- C10: on every successful run of `handlerUploadVideo` the storage key is
`<orientation class>/<identifier>.mp4`, the class being the one the probed geometry is
classified as (landscape for 1920x1080) and `<identifier>.mp4` the generated asset path; that
key is the key of every `PutObject` call, and the record returned and stored has the
`VideoURL` `<s3CfDistribution>/<key>`. -/
theorem handlerUploadVideo_storage_key (cfg : apiConfig) (w : World) (r : VideoRequest)
    (h : (handlerUploadVideo cfg w r).response.isSuccess = true) :
    ∃ (vid : Video) (s : Stream) (more : List Stream) (o : Orientation) (key : String),
      r.videoID = some vid.ID ∧ GetVideo w vid.ID = some vid ∧
      r.probe = .streams (s :: more) ∧ aspectOf s.Width s.Height = o.ratio ∧
      (s = ⟨1920, 1080⟩ → o = .landscape) ∧
      getAssetPath r.random "video/mp4"
        = String.mk (base64RawURL (randomBuffer r.random)) ++ ".mp4" ∧
      key = o.name ++ "/" ++ String.mk (base64RawURL (randomBuffer r.random)) ++ ".mp4" ∧
      Call.putObject cfg.s3Bucket key "video/mp4" ∈ (handlerUploadVideo cfg w r).calls ∧
      (∀ bucket k contentType,
        Call.putObject bucket k contentType ∈ (handlerUploadVideo cfg w r).calls → k = key) ∧
      (handlerUploadVideo cfg w r).response
        = .json StatusOK { vid with VideoURL := some (cfg.s3CfDistribution ++ "/" ++ key) } ∧
      GetVideo (handlerUploadVideo cfg w r).world vid.ID
        = some { vid with VideoURL := some (cfg.s3CfDistribution ++ "/" ++ key) } := by
  obtain ⟨id, token, user, fileType, name, vid, s, more, output, hid, htoken, hjwt, hget, hown,
    hpart, hparse, htemp, hcopy, hseek, hprobe, hremux, hopen, hupd⟩ :=
    handlerUploadVideo_success_inv cfg w r h
  obtain ⟨o, ho⟩ := aspectOf_class s.Width s.Height
  have hvid : vid.ID = id := GetVideo_ID hget
  have hkey := filepathJoin_assetPath o r.random
  rw [handlerUploadVideo_upload cfg w r hid htoken hjwt hget hown hpart hparse htemp hcopy hseek
    hprobe hremux]
  rw [ho, directoryOf_ratio, hkey]
  refine ⟨vid, s, more, o, _, by rw [hvid]; exact hid, by rw [hvid]; exact hget, hprobe, ho, ?_,
    ?_, rfl, ?_, ?_, ?_, ?_⟩
  · intro hs
    subst hs
    exact Orientation.ratio_injective (ho.symm.trans (by decide))
  · rw [getAssetPath_mp4]
    apply String.ext
    simp
  · simp [uploadProcessed, hopen, hupd, UpdateVideo]
  · intro bucket k contentType hmem
    simp [uploadProcessed, hopen, hupd, UpdateVideo] at hmem
    exact hmem.2.1
  · simp [uploadProcessed, hopen, hupd, UpdateVideo]
  · have hg : w.videos.find? (fun v => v.ID = vid.ID) = some vid := by
      rw [hvid]; exact hget
    simp only [uploadProcessed, hopen, hupd, UpdateVideo, Bool.false_eq_true, if_false,
      GetVideo, World.remove]
    have hv : ∀ a b : World, a.videos = w.videos → b.videos = w.videos →
        (if r.putObjectError = true then a else b).videos = w.videos := by
      intro a b ha hb
      split_ifs <;> assumption
    rw [hv _ _ (by simp [World.write, ParseMultipartForm_videos])
      (by simp [World.write, World.put, ParseMultipartForm_videos])]
    exact find?_map_update w.videos
      { vid with VideoURL := some (cfg.s3CfDistribution ++ "/" ++
        (o.name ++ "/" ++ String.mk (base64RawURL (randomBuffer r.random)) ++ ".mp4")) }
      rfl hg

/-- C10 at the upload of a 1920x1080 video. -/
theorem handlerUploadVideo_storage_key_witness :
    (handlerUploadVideo sampleConfig sampleWorld sampleUpload).response.isSuccess = true
    ∧ ∃ (vid : Video) (s : Stream) (more : List Stream) (o : Orientation) (key : String),
      sampleUpload.videoID = some vid.ID ∧ GetVideo sampleWorld vid.ID = some vid ∧
      sampleUpload.probe = .streams (s :: more) ∧ aspectOf s.Width s.Height = o.ratio ∧
      (s = ⟨1920, 1080⟩ → o = .landscape) ∧
      getAssetPath sampleUpload.random "video/mp4"
        = String.mk (base64RawURL (randomBuffer sampleUpload.random)) ++ ".mp4" ∧
      key = o.name ++ "/" ++ String.mk (base64RawURL (randomBuffer sampleUpload.random))
        ++ ".mp4" ∧
      Call.putObject sampleConfig.s3Bucket key "video/mp4"
        ∈ (handlerUploadVideo sampleConfig sampleWorld sampleUpload).calls ∧
      (∀ bucket k contentType,
        Call.putObject bucket k contentType
          ∈ (handlerUploadVideo sampleConfig sampleWorld sampleUpload).calls → k = key) ∧
      (handlerUploadVideo sampleConfig sampleWorld sampleUpload).response
        = .json StatusOK
            { vid with VideoURL := some (sampleConfig.s3CfDistribution ++ "/" ++ key) } ∧
      GetVideo (handlerUploadVideo sampleConfig sampleWorld sampleUpload).world vid.ID
        = some { vid with VideoURL := some (sampleConfig.s3CfDistribution ++ "/" ++ key) } :=
  ⟨by decide, handlerUploadVideo_storage_key sampleConfig sampleWorld sampleUpload (by decide)⟩

end Tubely
